import Mathlib

/-!
Shallow embedding of `src/services/songService.ts` (the TTL-and-retry variant,
which the spec designates as the intended design).

Modelling conventions:
* JavaScript strings are modelled as Lean `String` / `List Char`; string
  truthiness (`s ||  d`) is `none`/empty ↦ default.
* Numbers that the code uses as non-negative integers (track ids, durations,
  start times) are `Nat`; wall-clock timestamps are `Int` so that
  `now - timestamp` subtraction behaves as in JS.
* `Date.now()` is passed explicitly as a `now : Int` parameter.
* The module-level caches (`searchCache : Map`, `popularCache`) are explicit
  state (`SvcState`); a JS `Map` is an insertion-ordered association list and
  `Map.set` updates in place or appends, which `jsMapSet` mirrors.
* Network effects are oracles: each operation receives the (already awaited)
  result of its `fetch`/`fetchFromITunes` calls, and reports the observable
  effects it performs in an event list.
-/

namespace SongService

/-! ## JS-flavoured helpers -/

/-- JS `\s` character class (also the character set removed by
`String.prototype.trim`): space, tab, line terminators, and the Unicode
space separators enumerated by the ECMAScript spec. -/
def jsWS (c : Char) : Bool :=
  c = ' ' || c = '\t' || c = '\n' || c.toNat = 0x0b || c.toNat = 0x0c || c = '\r' ||
  c.toNat = 0xa0 || c.toNat = 0x1680 || (0x2000 ≤ c.toNat && c.toNat ≤ 0x200a) ||
  c.toNat = 0x2028 || c.toNat = 0x2029 || c.toNat = 0x202f || c.toNat = 0x205f ||
  c.toNat = 0x3000 || c.toNat = 0xfeff

/-- JS regex `.` (no `s` flag): any character except a line terminator. -/
def jsDot (c : Char) : Bool :=
  !(c = '\n' || c = '\r' || c.toNat = 0x2028 || c.toNat = 0x2029)

/-- JS `String.prototype.trim` on a character list. -/
def jsTrim (cs : List Char) : List Char :=
  ((cs.dropWhile jsWS).reverse.dropWhile jsWS).reverse

/-- JS `String.prototype.trim`. -/
def jsTrimS (s : String) : String :=
  String.mk (jsTrim s.toList)

/-- JS `String.prototype.toLowerCase` (per-character lowercasing). -/
def jsToLower (s : String) : String :=
  String.mk (s.toList.map Char.toLower)

/-- JS `a || d` where `a` is a possibly-absent string: `undefined` and the
empty string are falsy. -/
def jsOr (o : Option String) (d : String) : String :=
  match o with
  | none => d
  | some s => if s.isEmpty then d else s

/-- `jsOr` on character lists. -/
def jsOrL (o : Option (List Char)) (d : List Char) : List Char :=
  match o with
  | none => d
  | some s => if s.isEmpty then d else s

/-- Truthiness of a possibly-absent JS string. -/
def strTruthy (o : Option String) : Bool :=
  match o with
  | none => false
  | some s => !s.isEmpty

/-- Truthiness of a possibly-absent JS non-negative number. -/
def natTruthy (o : Option Nat) : Bool :=
  match o with
  | none => false
  | some n => n ≠ 0

/-- JS `String.prototype.includes`: `needle` occurs contiguously in `hay`. -/
def jsIncludes : List Char → List Char → Bool
  | [], needle => needle.isEmpty
  | c :: t, needle => needle.isPrefixOf (c :: t) || jsIncludes t needle

/-- JS `String.prototype.split(sep)` with a single-character separator. -/
def splitOnChar (sep : Char) : List Char → List (List Char)
  | [] => [[]]
  | c :: rest =>
    let r := splitOnChar sep rest
    if c = sep then [] :: r
    else
      match r with
      | [] => [[c]]
      | g :: gs => (c :: g) :: gs

/-- JS `String.prototype.replace(pat, repl)` with a plain non-empty string
pattern: replaces the first occurrence only. -/
def replaceFirst (s pat repl : String) : String :=
  match s.splitOn pat with
  | [] => s
  | [whole] => whole
  | p :: rest => p ++ repl ++ String.intercalate pat rest

/-- One JS-`Map` insertion (`Map.set`): updating an existing key keeps its
position, a new key is appended at the end. -/
def jsMapSet {κ α : Type} [DecidableEq κ] (m : List (κ × α)) (k : κ) (v : α) :
    List (κ × α) :=
  match m with
  | [] => [(k, v)]
  | (k', v') :: t => if k' = k then (k, v) :: t else (k', v') :: jsMapSet t k v

/-- JS `Map.get`. -/
def jsMapGet {κ α : Type} [DecidableEq κ] (m : List (κ × α)) (k : κ) : Option α :=
  (m.find? (fun kv => kv.1 = k)).map (fun kv => kv.2)

/-- UTF-8 bytes of one character, as JS `encodeURIComponent` percent-encodes. -/
def utf8Bytes (c : Char) : List Nat :=
  let n := c.toNat
  if n < 0x80 then [n]
  else if n < 0x800 then [0xc0 + n / 64, 0x80 + n % 64]
  else if n < 0x10000 then [0xe0 + n / 4096, 0x80 + (n / 64) % 64, 0x80 + n % 64]
  else [0xf0 + n / 262144, 0x80 + (n / 4096) % 64, 0x80 + (n / 64) % 64, 0x80 + n % 64]

/-- Upper-case hexadecimal digit. -/
def hexDigit (n : Nat) : Char :=
  if n < 10 then Char.ofNat (48 + n) else Char.ofNat (55 + n)

/-- Characters `encodeURIComponent` leaves unescaped. -/
def uriUnreserved (c : Char) : Bool :=
  c.isAlphanum || c = '-' || c = '_' || c = '.' || c = '!' || c = '~' ||
  c = '*' || c.toNat = 39 || c = '(' || c = ')'

/-- JS `encodeURIComponent`. -/
def encodeURIComponent (s : String) : String :=
  String.mk (s.toList.foldr
    (fun c acc =>
      if uriUnreserved c then c :: acc
      else (utf8Bytes c).foldr
        (fun b acc2 => '%' :: hexDigit (b / 16) :: hexDigit (b % 16) :: acc2) acc)
    [])

/-! ## Data model (`../types` shapes as constructed by the service) -/

/-- Catalog search result (`Song` in `types.ts`), as built by
`parseITunesResponse` and `FALLBACK_SONGS`. -/
structure Song where
  id : Nat
  title : String
  artist : String
  album : String
  albumCover : String
  preview : String
  duration : Nat
deriving DecidableEq, Repr

/-- The two link platforms of `SongData.type`. -/
inductive Platform
  | youtube
  | spotify
deriving DecidableEq, Repr

/-- Resolved attached song (`SongData` in `types.ts`), as built by
`fetchYouTubeInfo` / `fetchSpotifyInfo`. -/
structure SongData where
  type : Platform
  videoId : Option String := none
  trackId : Option String := none
  title : String
  artist : String
  albumCover : Option String
  startTime : Nat
  endTime : Nat
deriving DecidableEq, Repr

/-- `CacheEntry<T>`: payload plus creation timestamp. -/
structure CacheEntry (T : Type) where
  data : T
  timestamp : Int
deriving DecidableEq, Repr

/-- `SEARCH_CACHE_TTL`: 30 minutes in milliseconds. -/
def SEARCH_CACHE_TTL : Int := 30 * 60 * 1000

/-- `POPULAR_CACHE_TTL`: 2 hours in milliseconds. -/
def POPULAR_CACHE_TTL : Int := 2 * 60 * 60 * 1000

/-- The module-level mutable state: `searchCache` (a JS `Map`, i.e. an
insertion-ordered association list) and `popularCache`. -/
structure SvcState where
  searchCache : List (String × CacheEntry (List Song))
  popularCache : Option (CacheEntry (List Song))
deriving DecidableEq, Repr

/-- `isCacheValid(entry, ttl)`; `Date.now()` passed as `now`. -/
def isCacheValid {T : Type} (entry : Option (CacheEntry T)) (ttl : Int) (now : Int) : Bool :=
  match entry with
  | none => false
  | some e => now - e.timestamp < ttl

/-- `cleanupCache`: delete the search entries with `now - timestamp >= SEARCH_CACHE_TTL`
and clear the popular slot if `now - timestamp >= POPULAR_CACHE_TTL`. -/
def cleanupCache (st : SvcState) (now : Int) : SvcState :=
  { searchCache := st.searchCache.filter
      (fun kv => !(decide (now - kv.2.timestamp ≥ SEARCH_CACHE_TTL))),
    popularCache :=
      match st.popularCache with
      | some pc => if now - pc.timestamp ≥ POPULAR_CACHE_TTL then none else some pc
      | none => none }

/-! ## iTunes payloads and the normalizer -/

/-- One raw track object of the iTunes `results` array (fields the code
consumes); `none` models an absent (`undefined`) field. -/
structure RawTrack where
  previewUrl : Option String := none
  kind : Option String := none
  trackId : Option Nat := none
  trackName : Option String := none
  artistName : Option String := none
  collectionName : Option String := none
  artworkUrl100 : Option String := none
  trackTimeMillis : Option Nat := none
deriving DecidableEq, Repr

/-- A raw iTunes search response; `results` may be absent. -/
structure ITunesData where
  results : Option (List RawTrack) := none
deriving DecidableEq, Repr

/-- `parseITunesResponse(data)`; the outer `Option` models a `null` argument
(`!data?.results?.length` guard). -/
def parseITunesResponse (data : Option ITunesData) : List Song :=
  match data with
  | none => []
  | some d =>
    match d.results with
    | none => []
    | some rs =>
      if rs.length = 0 then []
      else
        (rs.filter (fun t =>
            strTruthy t.previewUrl && t.kind == some "song" && natTruthy t.trackId)).map
          (fun t =>
            { id := t.trackId.getD 0,
              title := String.mk ((jsOr t.trackName "Unknown").toList.take 100),
              artist := String.mk ((jsOr t.artistName "Unknown Artist").toList.take 100),
              album := String.mk ((jsOr t.collectionName "").toList.take 100),
              albumCover := jsOr (t.artworkUrl100.map
                (fun u => replaceFirst u "100x100" "300x300")) "",
              preview := t.previewUrl.getD "",
              duration := (match t.trackTimeMillis with
                | none => 30000
                | some ms => if ms = 0 then 30000 else ms) / 1000 })

/-! ## fetchFromITunes: retry policy over an outcome oracle -/

/-- Outcome of one underlying `fetch` attempt (after `res.json()`):
`ok` is a 2xx response with a parsed body, `httpError` a non-2xx status
(the code throws `HTTP <status>`), `networkError` any other non-abort
rejection (transport failure, JSON parse error), `abortTimeout` the
`AbortError` `DOMException` raised when the 8-second timer fires. -/
inductive FetchOutcome
  | ok (data : ITunesData)
  | httpError (status : Nat)
  | networkError
  | abortTimeout
deriving DecidableEq, Repr

/-- Observable steps of `fetchFromITunes`: issuing attempt number `idx`, or
sleeping `ms` milliseconds between attempts. -/
inductive FetchEv
  | attempt (idx : Nat)
  | delayMs (ms : Nat)
deriving DecidableEq, Repr

/-- `fetchFromITunes(url, retries)`: `outcomes i` is what the `i`-th attempt
would yield; returns the overall result and the trace of attempts/delays.
Transient failures retry after a 500 ms sleep while `retries > 0`; an
`AbortError` (and exhausted retries) return `null` immediately. -/
def fetchFromITunes (outcomes : Nat → FetchOutcome) (idx : Nat) :
    Nat → Option ITunesData × List FetchEv
  | 0 =>
    match outcomes idx with
    | .ok d => (some d, [.attempt idx])
    | _ => (none, [.attempt idx])
  | r + 1 =>
    match outcomes idx with
    | .ok d => (some d, [.attempt idx])
    | .abortTimeout => (none, [.attempt idx])
    | _ =>
      let rest := fetchFromITunes outcomes (idx + 1) r
      (rest.1, .attempt idx :: .delayMs 500 :: rest.2)

/-- A transient (retryable) outcome: non-2xx status or non-abort error. -/
def FetchOutcome.transient : FetchOutcome → Bool
  | .httpError _ => true
  | .networkError => true
  | _ => false

/-- Number of fetch attempts in a trace. -/
def countAttempts (evs : List FetchEv) : Nat :=
  evs.countP (fun e => match e with | .attempt _ => true | _ => false)

/-! ## FALLBACK_SONGS -/

/-- The hard-coded fallback list at the bottom of the module. -/
def FALLBACK_SONGS : List Song :=
  [ { id := 1440818839, title := "Shape of You", artist := "Ed Sheeran", album := "÷",
      albumCover := "https://is1-ssl.mzstatic.com/image/thumb/Music125/v4/3f/84/14/3f841469-7404-6b98-a8f9-4f8b1a3c3d4b/source/300x300bb.jpg",
      preview := "https://audio-ssl.itunes.apple.com/itunes-assets/AudioPreview116/v4/ab/86/52/ab8652a7-62d0-9fba-1f28-7a92c8d18518/mzaf_12184443632225615168.plus.aac.p.m4a",
      duration := 234 },
    { id := 1450330685, title := "Blinding Lights", artist := "The Weeknd", album := "After Hours",
      albumCover := "https://is1-ssl.mzstatic.com/image/thumb/Music115/v4/1c/50/de/1c50de8f-5ee5-5a31-5c83-9b1c6e0d3558/source/300x300bb.jpg",
      preview := "", duration := 200 },
    { id := 1508562704, title := "Levitating", artist := "Dua Lipa", album := "Future Nostalgia",
      albumCover := "https://is1-ssl.mzstatic.com/image/thumb/Music114/v4/3f/ee/75/3fee75c6-c8cc-2eb0-3e64-ce3d6e8f8d6a/source/300x300bb.jpg",
      preview := "", duration := 203 } ]

/-! ## getPopularSongs / searchSongs -/

/-- Observable effects of the two catalog operations. -/
inductive Ev
  | cacheRead (key : String)
  | netCall (url : String)
  | cacheWrite (key : String)
deriving DecidableEq, Repr

/-- The three fixed popular queries, in issuance order. -/
def popularQueries : List String :=
  [ "https://itunes.apple.com/search?term=top+hits+2024&media=music&entity=song&limit=8",
    "https://itunes.apple.com/search?term=arijit+singh&media=music&entity=song&limit=4",
    "https://itunes.apple.com/search?term=ed+sheeran&media=music&entity=song&limit=4" ]

/-- Result of a catalog operation: returned songs, post-state, effect trace. -/
structure OpResult where
  songs : List Song
  state : SvcState
  events : List Ev
deriving Repr

/-- The guard at the top of `getPopularSongs`:
`isCacheValid(popularCache, POPULAR_CACHE_TTL) && popularCache.data.length > 0`,
returning the served data when it holds. -/
def popularHit (st : SvcState) (now : Int) : Option (List Song) :=
  match st.popularCache with
  | some pc =>
    if isCacheValid (some pc) POPULAR_CACHE_TTL now && pc.data.length > 0 then
      some pc.data
    else none
  | none => none

/-- The JS `new Map(allSongs.map(s => [s.id, s]))` build: left-to-right
insertion with `jsMapSet`. -/
def songIdMap (allSongs : List Song) : List (Nat × Song) :=
  allSongs.foldl (fun m s => jsMapSet m s.id s) []

/-- `Array.from(new Map(allSongs.map(s => [s.id, s])).values())`. -/
def dedupById (allSongs : List Song) : List Song :=
  (songIdMap allSongs).map (fun kv => kv.2)

/-- The fetch-and-aggregate path of `getPopularSongs`; `fetched` holds the
settled `fetchFromITunes` result of each of the three queries
(`Promise.allSettled` — `fetchFromITunes` never rejects, so every element is
fulfilled, and the `result.value` truthiness test drops the `null`s). -/
def getPopularSongsFetch (st : SvcState) (now : Int)
    (fetched : List (Option ITunesData)) : OpResult :=
  let allSongs := ((fetched.filterMap id).map
    (fun d => parseITunesResponse (some d))).flatten
  let unique := dedupById allSongs
  let finalSongs := unique.take 15
  if finalSongs.length > 0 then
    { songs := finalSongs,
      state := { st with popularCache := some ⟨finalSongs, now⟩ },
      events := popularQueries.map Ev.netCall }
  else
    { songs := FALLBACK_SONGS, state := st,
      events := popularQueries.map Ev.netCall }

/-- `getPopularSongs()`. -/
def getPopularSongs (st : SvcState) (now : Int)
    (fetched : List (Option ITunesData)) : OpResult :=
  match popularHit st now with
  | some data => { songs := data, state := st, events := [] }
  | none => getPopularSongsFetch st now fetched

/-- The search URL built from the trimmed query. -/
def searchUrl (trimmed : String) : String :=
  "https://itunes.apple.com/search?term=" ++ encodeURIComponent trimmed ++
    "&media=music&entity=song&limit=15"

/-- The fallback branch of `searchSongs`: case-insensitive substring filter of
`FALLBACK_SONGS` by the (already lowercased) cache key. -/
def fallbackFilter (key : String) : List Song :=
  FALLBACK_SONGS.filter (fun s =>
    jsIncludes (jsToLower s.title).toList key.toList ||
    jsIncludes (jsToLower s.artist).toList key.toList)

/-- `searchSongs(query)`; `fetched` is the (already awaited) result of the
single `fetchFromITunes` call the miss path would issue. -/
def searchSongs (st : SvcState) (now : Int) (query : String)
    (fetched : Option ITunesData) : OpResult :=
  let trimmed := jsTrimS query
  if trimmed.isEmpty || trimmed.length < 2 then
    { songs := [], state := st, events := [] }
  else
    let key := jsToLower trimmed
    let cached := jsMapGet st.searchCache key
    let miss : OpResult :=
      let url := searchUrl trimmed
      let songs := parseITunesResponse fetched
      if songs.length ≠ 0 then
        { songs := songs,
          state := { st with searchCache := jsMapSet st.searchCache key ⟨songs, now⟩ },
          events := [.cacheRead key, .netCall url, .cacheWrite key] }
      else
        { songs := fallbackFilter key, state := st,
          events := [.cacheRead key, .netCall url] }
    match cached with
    | some e =>
      if isCacheValid (some e) SEARCH_CACHE_TTL now then
        { songs := e.data, state := st, events := [.cacheRead key] }
      else miss
    | none => miss

/-! ## Link resolver: URL parsing

The JS regexes are modelled as leftmost-match searches over character lists
with the exact backtracking priorities of an ECMAScript engine. -/

/-- Character class `[a-zA-Z0-9_-]` of the video-id capture. -/
def ytIdChar (c : Char) : Bool :=
  c.isAlphanum || c = '_' || c = '-'

/-- `{11}`-style exact-count capture: the next `n` characters, all satisfying
`p`; fails if fewer. -/
def takeExact (p : Char → Bool) : Nat → List Char → Option (List Char)
  | 0, _ => some []
  | _ + 1, [] => none
  | n + 1, c :: rest =>
    if p c then (takeExact p n rest).map (fun l => c :: l) else none

/-- First alternative prefix `youtube\.com\/watch\?v=` of the video regex. -/
def ytPat1 : List Char := "youtube.com/watch?v=".toList

/-- Second alternative prefix `youtu\.be\/`. -/
def ytPat2 : List Char := "youtu.be/".toList

/-- Try `/(?:youtube\.com\/watch\?v=|youtu\.be\/)([a-zA-Z0-9_-]{11})/`
anchored at the current position (the two prefixes cannot both match at one
position, so alternative order does not matter). -/
def ytMatchAt (cs : List Char) : Option (List Char) :=
  if ytPat1.isPrefixOf cs then takeExact ytIdChar 11 (cs.drop ytPat1.length)
  else if ytPat2.isPrefixOf cs then takeExact ytIdChar 11 (cs.drop ytPat2.length)
  else none

/-- Unanchored (leftmost) search for the video-id pattern. -/
def ytSearch : List Char → Option (List Char)
  | [] => none
  | c :: rest =>
    match ytMatchAt (c :: rest) with
    | some vid => some vid
    | none => ytSearch rest

/-- Try `/[?&]t=(\d+)/` anchored at the current position; the greedy `\d+`
captures the maximal digit run. -/
def tParamAt (cs : List Char) : Option Nat :=
  match cs with
  | c :: 't' :: '=' :: rest =>
    if c = '?' || c = '&' then
      let ds := rest.takeWhile Char.isDigit
      if ds.isEmpty then none
      else some (ds.foldl (fun n d => n * 10 + (d.toNat - 48)) 0)
    else none
  | _ => none

/-- Unanchored search for the `t` parameter. -/
def tParamSearch : List Char → Option Nat
  | [] => none
  | c :: rest =>
    match tParamAt (c :: rest) with
    | some n => some n
    | none => tParamSearch rest

/-- Result shape of `parseYouTubeUrl`. -/
structure YTLink where
  videoId : String
  startTime : Option Nat
deriving DecidableEq, Repr

/-- `parseYouTubeUrl(url)`: video id from the first regex, optional start
time via `parseInt` on the `t` capture. -/
def parseYouTubeUrl (url : String) : Option YTLink :=
  match ytSearch url.toList with
  | none => none
  | some vid => some { videoId := String.mk vid, startTime := tParamSearch url.toList }

/-- Prefix `spotify\.com\/track\/` of the Spotify link regex. -/
def spotifyUrlPat : List Char := "spotify.com/track/".toList

/-- Try `/spotify\.com\/track\/([a-zA-Z0-9]+)/` anchored here; greedy `+`
captures the maximal alphanumeric run (at least one). -/
def spotifyUrlAt (cs : List Char) : Option (List Char) :=
  if spotifyUrlPat.isPrefixOf cs then
    let run := (cs.drop spotifyUrlPat.length).takeWhile Char.isAlphanum
    if run.isEmpty then none else some run
  else none

/-- Unanchored search for the track-id pattern. -/
def spotifyUrlSearch : List Char → Option (List Char)
  | [] => none
  | c :: rest =>
    match spotifyUrlAt (c :: rest) with
    | some tid => some tid
    | none => spotifyUrlSearch rest

/-- `parseSpotifyUrl(url)`. -/
def parseSpotifyUrl (url : String) : Option String :=
  (spotifyUrlSearch url.toList).map String.mk

/-! ## Link resolver: embed normalization -/

/-- An oEmbed response body (fields the code consumes); `none` models an
absent field. -/
structure EmbedData where
  title : Option String := none
  thumbnail_url : Option String := none
deriving DecidableEq, Repr

/-- `fetchYouTubeInfo(videoId)`; `resp` is the embed fetch result (`none` for
a failed fetch, non-2xx status, or JSON error). An absent `title` makes
`data.title.split` throw, which the `catch` turns into `null`. -/
def fetchYouTubeInfo (videoId : String) (resp : Option EmbedData) : Option SongData :=
  match resp with
  | none => none
  | some data =>
    match data.title with
    | none => none
    | some t =>
      let parts := (splitOnChar '-' t.toList).map jsTrim
      some
        { type := .youtube,
          videoId := some videoId,
          title := String.mk (jsOrL (parts.get? 1) t.toList),
          artist := String.mk (jsOrL (parts.get? 0) "Unknown Artist".toList),
          albumCover := some (jsOr data.thumbnail_url
            ("https://img.youtube.com/vi/" ++ videoId ++ "/maxresdefault.jpg")),
          startTime := 0,
          endTime := 30 }

/-- `\s*(.+)` tail of the Spotify title regex with `\s*` backtracking: `i` is
the whitespace-run length currently tried (starting from the maximal run);
`(.+)` greedily captures the maximal `jsDot` run, needing at least one
character. -/
def dotPlusFrom (r : List Char) : Nat → Option (List Char)
  | 0 =>
    (match r with
     | [] => none
     | c :: t => if jsDot c then some ((c :: t).takeWhile jsDot) else none)
  | i + 1 =>
    (match r.drop (i + 1) with
     | [] => none
     | c :: t => if jsDot c then some ((c :: t).takeWhile jsDot) else none).orElse
      (fun _ => dotPlusFrom r i)

/-- The `·\s*(.+)` part after the first `\s*` has been consumed. -/
def spotTailAux : List Char → Option (List Char)
  | [] => none
  | c :: r =>
    if c = '·' then dotPlusFrom r ((r.takeWhile jsWS).length) else none

/-- `\s*·\s*(.+)` anchored at `cs`. The first `\s*` is deterministic: `·` is
not whitespace, so only the maximal whitespace run can be followed by `·`. -/
def spotTail (cs : List Char) : Option (List Char) :=
  spotTailAux (cs.dropWhile jsWS)

/-- The lazy group `(.+?)` at a fixed start position: grow the group one
`jsDot` character at a time, first trying the tail after each growth.
`acc` is the group matched so far. -/
def spotGroup1 (acc : List Char) : List Char → Option (List Char × List Char)
  | [] => none
  | c :: rest =>
    if jsDot c then
      match spotTail rest with
      | some g2 => some (acc ++ [c], g2)
      | none => spotGroup1 (acc ++ [c]) rest
    else none

/-- Unanchored leftmost search for `/(.+?)\s*·\s*(.+)/`, returning the two
captures. -/
def spotSearch : List Char → Option (List Char × List Char)
  | [] => none
  | c :: rest =>
    match spotGroup1 [] (c :: rest) with
    | some r => some r
    | none => spotSearch rest

/-- `fetchSpotifyInfo(trackId)`; `resp` as for `fetchYouTubeInfo`. The
optional chaining `data.title?.match(...)` makes an absent title yield no
match rather than a throw. -/
def fetchSpotifyInfo (trackId : String) (resp : Option EmbedData) : Option SongData :=
  match resp with
  | none => none
  | some data =>
    let m := data.title.bind (fun t => spotSearch t.toList)
    some
      { type := .spotify,
        trackId := some trackId,
        title := match m with
          | some g => String.mk g.1
          | none => jsOr data.title "Unknown",
        artist := match m with
          | some g => String.mk g.2
          | none => "Unknown Artist",
        albumCover := data.thumbnail_url,
        startTime := 0,
        endTime := 30 }

/-- `processMusicLink(url)`; `ytResp`/`spResp` are the embed fetch results
the two branches would observe. `if (info && yt.startTime)` requires a
truthy (non-zero) start time to shift the window. -/
def processMusicLink (url : String) (ytResp spResp : Option EmbedData) :
    Option SongData :=
  match parseYouTubeUrl url with
  | some yt =>
    let info := fetchYouTubeInfo yt.videoId ytResp
    (match info, yt.startTime with
     | some i, some t =>
       if t ≠ 0 then some { i with startTime := t, endTime := t + 30 } else some i
     | _, _ => info)
  | none =>
    match parseSpotifyUrl url with
    | some tid => fetchSpotifyInfo tid spResp
    | none => none

/-- Network calls in a trace of catalog-operation events. -/
def countNetCalls (evs : List Ev) : Nat :=
  evs.countP (fun e => match e with | .netCall _ => true | _ => false)

/-- Keep-first deduplication of a key list (the insertion order of a JS
`Map` built from keyed pairs). -/
def firstSeenKeys (l : List Nat) : List Nat :=
  l.foldl (fun acc k => if k ∈ acc then acc else acc ++ [k]) []

/-- Sample raw catalog payload: one valid track with id 1, title "A". -/
def dA : ITunesData :=
  { results := some [{ previewUrl := some "p", kind := some "song",
                       trackId := some 1, trackName := some "A" }] }

/-- Sample raw catalog payload: one valid track with id 1, title "B". -/
def dB : ITunesData :=
  { results := some [{ previewUrl := some "p", kind := some "song",
                       trackId := some 1, trackName := some "B" }] }

/-! # Basic lemmas -/

theorem mk_toList : ∀ s : String, String.mk s.toList = s
  | ⟨_⟩ => rfl

theorem toList_mk (l : List Char) : (String.mk l).toList = l := rfl

theorem isEmpty_false_of_two_le_length {s : String} (h : 2 ≤ s.length) :
    s.isEmpty = false := by
  rcases hb : s.isEmpty with _ | _
  · rfl
  · have : s = "" := (String.isEmpty_iff s).mp hb
    subst this
    simp at h

theorem countAttempts_cons_attempt (i : Nat) (evs : List FetchEv) :
    countAttempts (.attempt i :: evs) = countAttempts evs + 1 := by
  simp [countAttempts, List.countP_cons]

theorem countAttempts_cons_delay (ms : Nat) (evs : List FetchEv) :
    countAttempts (.delayMs ms :: evs) = countAttempts evs := by
  simp [countAttempts, List.countP_cons]

/-! # C5: retry policy of fetchFromITunes -/

theorem fetchFromITunes_attempts_le (outcomes : Nat → FetchOutcome) :
    ∀ retries idx, countAttempts (fetchFromITunes outcomes idx retries).2 ≤ retries + 1 := by
  intro retries
  induction retries with
  | zero =>
    intro idx
    cases h : outcomes idx <;>
      simp [fetchFromITunes, h, countAttempts, List.countP_cons]
  | succ r ih =>
    intro idx
    cases h : outcomes idx <;>
      simp [fetchFromITunes, h, countAttempts, List.countP_cons] <;>
      simpa [countAttempts] using ih (idx + 1)

theorem fetchFromITunes_abort_immediate (outcomes : Nat → FetchOutcome)
    (idx retries : Nat) (h : outcomes idx = .abortTimeout) :
    fetchFromITunes outcomes idx retries = (none, [.attempt idx]) := by
  cases retries <;> simp [fetchFromITunes, h]

theorem fetchFromITunes_transient_retries (outcomes : Nat → FetchOutcome)
    (idx r : Nat) (h : (outcomes idx).transient = true) :
    fetchFromITunes outcomes idx (r + 1) =
      ((fetchFromITunes outcomes (idx + 1) r).1,
        .attempt idx :: .delayMs 500 :: (fetchFromITunes outcomes (idx + 1) r).2) := by
  cases ho : outcomes idx <;> simp [FetchOutcome.transient, ho] at h ⊢ <;>
    simp [fetchFromITunes, ho]

theorem fetchFromITunes_all_fail (outcomes : Nat → FetchOutcome)
    (hall : ∀ i, (outcomes i).transient = true) :
    ∀ retries idx, (fetchFromITunes outcomes idx retries).1 = none := by
  intro retries
  induction retries with
  | zero =>
    intro idx
    have := hall idx
    cases ho : outcomes idx <;> simp [FetchOutcome.transient, ho] at this ⊢ <;>
      simp [fetchFromITunes, ho]
  | succ r ih =>
    intro idx
    have := hall idx
    cases ho : outcomes idx <;> simp [FetchOutcome.transient, ho] at this ⊢ <;>
      simp [fetchFromITunes, ho, ih (idx + 1)]

/-- C5: `fetchFromITunes`, for every sequence of attempt outcomes, makes at
most `retries + 1` attempts (3 with the default of 2 retries); a transient
failure (non-2xx status or non-abort error) re-issues the fetch after a
500 ms delay while retries remain; an `AbortError` from the 8-second timeout
returns `null` immediately with no further attempt; and when every attempt
fails it returns `null` rather than throwing. -/
theorem fetchFromITunes_retry_policy :
    (∀ (outcomes : Nat → FetchOutcome) (idx retries : Nat),
        countAttempts (fetchFromITunes outcomes idx retries).2 ≤ retries + 1) ∧
    (∀ (outcomes : Nat → FetchOutcome) (idx retries : Nat),
        outcomes idx = .abortTimeout →
        fetchFromITunes outcomes idx retries = (none, [.attempt idx])) ∧
    (∀ (outcomes : Nat → FetchOutcome) (idx r : Nat),
        (outcomes idx).transient = true →
        fetchFromITunes outcomes idx (r + 1) =
          ((fetchFromITunes outcomes (idx + 1) r).1,
            .attempt idx :: .delayMs 500 :: (fetchFromITunes outcomes (idx + 1) r).2)) ∧
    (∀ (outcomes : Nat → FetchOutcome) (idx retries : Nat),
        (∀ i, (outcomes i).transient = true) →
        (fetchFromITunes outcomes idx retries).1 = none) :=
  ⟨fun o idx retries => fetchFromITunes_attempts_le o retries idx,
   fun o idx retries h => fetchFromITunes_abort_immediate o idx retries h,
   fun o idx r h => fetchFromITunes_transient_retries o idx r h,
   fun o idx retries h => fetchFromITunes_all_fail o h retries idx⟩

/-- Closed instance of C5 at concrete outcome sequences. -/
theorem fetchFromITunes_retry_policy_witness :
    countAttempts (fetchFromITunes (fun _ => .networkError) 0 2).2 ≤ 3 ∧
    fetchFromITunes (fun _ => .abortTimeout) 5 2 = (none, [.attempt 5]) ∧
    fetchFromITunes (fun _ => .httpError 500) 0 2 =
      ((fetchFromITunes (fun _ => .httpError 500) 1 1).1,
        .attempt 0 :: .delayMs 500 :: (fetchFromITunes (fun _ => .httpError 500) 1 1).2) ∧
    (fetchFromITunes (fun _ => .networkError) 0 2).1 = none :=
  ⟨fetchFromITunes_retry_policy.1 (fun _ => .networkError) 0 2,
   fetchFromITunes_retry_policy.2.1 (fun _ => .abortTimeout) 5 2 rfl,
   fetchFromITunes_retry_policy.2.2.1 (fun _ => .httpError 500) 0 1 rfl,
   fetchFromITunes_retry_policy.2.2.2 (fun _ => .networkError) 0 2 (fun _ => rfl)⟩

/-! # C9: short queries are rejected with no effects -/

/-- C9: a query whose trimmed form is empty or shorter than 2 characters
makes `searchSongs` return the empty list with the state unchanged and no
events — no network call, no cache read and no cache write. -/
theorem searchSongs_short_query (st : SvcState) (now : Int) (q : String)
    (d : Option ITunesData)
    (h : jsTrimS q = "" ∨ (jsTrimS q).length < 2) :
    searchSongs st now q d = { songs := [], state := st, events := [] } := by
  have hlt : (jsTrimS q).length < 2 := by
    rcases h with h | h
    · rw [h]; decide
    · exact h
  simp [searchSongs, hlt]

/-- Closed instance of C9 at the one-character query `"a"`. -/
theorem searchSongs_short_query_witness :
    searchSongs ⟨[], none⟩ 0 "a" none = { songs := [], state := ⟨[], none⟩, events := [] } :=
  searchSongs_short_query ⟨[], none⟩ 0 "a" none (Or.inr (by decide))

/-! # Evaluation lemmas for searchSongs -/

theorem jsMapGet_set_self {κ α : Type} [DecidableEq κ] (m : List (κ × α)) (k : κ) (v : α) :
    jsMapGet (jsMapSet m k v) k = some v := by
  induction m with
  | nil => simp [jsMapSet, jsMapGet]
  | cons kv t ih =>
    by_cases hk : kv.1 = k
    · simp [jsMapSet, hk, jsMapGet]
    · simpa [jsMapSet, hk, jsMapGet, List.find?_cons] using ih

/-- The cache-hit branch of `searchSongs`. -/
theorem searchSongs_hit (st : SvcState) (now : Int) (q : String) (d : Option ITunesData)
    (e : CacheEntry (List Song))
    (hlen : 2 ≤ (jsTrimS q).length)
    (hget : jsMapGet st.searchCache (jsToLower (jsTrimS q)) = some e)
    (hfresh : now - e.timestamp < SEARCH_CACHE_TTL) :
    searchSongs st now q d =
      { songs := e.data, state := st, events := [.cacheRead (jsToLower (jsTrimS q))] } := by
  have h1 : (jsTrimS q).isEmpty = false := isEmpty_false_of_two_le_length hlen
  have h2 : ¬ (jsTrimS q).length < 2 := Nat.not_lt.mpr hlen
  simp [searchSongs, h1, h2, hget, isCacheValid, hfresh]

/-- The cache-miss path of `searchSongs`. -/
theorem searchSongs_miss (st : SvcState) (now : Int) (q : String) (d : Option ITunesData)
    (hlen : 2 ≤ (jsTrimS q).length)
    (hmiss : isCacheValid (jsMapGet st.searchCache (jsToLower (jsTrimS q)))
      SEARCH_CACHE_TTL now = false) :
    searchSongs st now q d =
      if (parseITunesResponse d).length ≠ 0 then
        { songs := parseITunesResponse d,
          state :=
            { st with
              searchCache :=
                jsMapSet st.searchCache (jsToLower (jsTrimS q))
                  ⟨parseITunesResponse d, now⟩ },
          events := [.cacheRead (jsToLower (jsTrimS q)), .netCall (searchUrl (jsTrimS q)),
                     .cacheWrite (jsToLower (jsTrimS q))] }
      else
        { songs := fallbackFilter (jsToLower (jsTrimS q)), state := st,
          events := [.cacheRead (jsToLower (jsTrimS q)), .netCall (searchUrl (jsTrimS q))] } := by
  have h1 : (jsTrimS q).isEmpty = false := isEmpty_false_of_two_le_length hlen
  have h2 : ¬ (jsTrimS q).length < 2 := Nat.not_lt.mpr hlen
  cases hget : jsMapGet st.searchCache (jsToLower (jsTrimS q)) with
  | none => simp [searchSongs, h1, h2, hget]
  | some e =>
    rw [hget] at hmiss
    simp [searchSongs, h1, h2, hget, hmiss]

/-- In both branches of the miss path, exactly one network call happens. -/
theorem searchSongs_miss_one_netcall (st : SvcState) (now : Int) (q : String)
    (d : Option ITunesData)
    (hlen : 2 ≤ (jsTrimS q).length)
    (hmiss : isCacheValid (jsMapGet st.searchCache (jsToLower (jsTrimS q)))
      SEARCH_CACHE_TTL now = false) :
    countNetCalls (searchSongs st now q d).events = 1 := by
  rw [searchSongs_miss st now q d hlen hmiss]
  by_cases h : (parseITunesResponse d).length ≠ 0 <;>
    simp [h, countNetCalls, List.countP_cons]

/-! # C6: cache hits and the two-consecutive-calls property -/

/-- C6 (amended): a query whose trimmed, lowercased form is a fresh cached
key is answered from the cache with no network call and no state change;
consequently two consecutive calls with queries equal after trimming and
lowercasing, made within the TTL window, issue exactly one network call in
total PROVIDED the first call's catalog fetch parses to a non-empty song
list (only then is the result cached; a failed or empty first fetch caches
nothing, so the second call fetches again). -/
theorem searchSongs_cache_idempotent :
    (∀ (st : SvcState) (now : Int) (q : String) (d : Option ITunesData)
        (e : CacheEntry (List Song)),
        2 ≤ (jsTrimS q).length →
        jsMapGet st.searchCache (jsToLower (jsTrimS q)) = some e →
        now - e.timestamp < SEARCH_CACHE_TTL →
        searchSongs st now q d =
          { songs := e.data, state := st, events := [.cacheRead (jsToLower (jsTrimS q))] }) ∧
    (∀ (st : SvcState) (now1 now2 : Int) (q q2 : String) (d d2 : Option ITunesData),
        2 ≤ (jsTrimS q).length →
        2 ≤ (jsTrimS q2).length →
        jsToLower (jsTrimS q2) = jsToLower (jsTrimS q) →
        isCacheValid (jsMapGet st.searchCache (jsToLower (jsTrimS q)))
          SEARCH_CACHE_TTL now1 = false →
        (parseITunesResponse d).length ≠ 0 →
        now2 - now1 < SEARCH_CACHE_TTL →
        countNetCalls (searchSongs st now1 q d).events = 1 ∧
        countNetCalls (searchSongs (searchSongs st now1 q d).state now2 q2 d2).events = 0 ∧
        (searchSongs (searchSongs st now1 q d).state now2 q2 d2).songs =
          (searchSongs st now1 q d).songs) := by
  constructor
  · exact fun st now q d e hlen hget hfresh => searchSongs_hit st now q d e hlen hget hfresh
  · intro st now1 now2 q q2 d d2 hlen hlen2 hkey hmiss hne hwin
    have hr1 := searchSongs_miss st now1 q d hlen hmiss
    rw [if_pos hne] at hr1
    have hstate : (searchSongs st now1 q d).state.searchCache =
        jsMapSet st.searchCache (jsToLower (jsTrimS q)) ⟨parseITunesResponse d, now1⟩ := by
      rw [hr1]
    have hget2 : jsMapGet (searchSongs st now1 q d).state.searchCache
        (jsToLower (jsTrimS q2)) = some ⟨parseITunesResponse d, now1⟩ := by
      rw [hstate, hkey]
      exact jsMapGet_set_self _ _ _
    have hr2 := searchSongs_hit (searchSongs st now1 q d).state now2 q2 d2
      ⟨parseITunesResponse d, now1⟩ hlen2 hget2 hwin
    refine ⟨?_, ?_, ?_⟩
    · rw [hr1]; simp [countNetCalls, List.countP_cons]
    · rw [hr2]; simp [countNetCalls, List.countP_cons]
    · rw [hr2, hr1]

/-- C6 counterexample to the claim as stated: when the first fetch fails,
two consecutive identical `searchSongs("ab")` calls issue two network calls
in total, not one. -/
theorem searchSongs_idempotence_counterexample :
    countNetCalls (searchSongs ⟨[], none⟩ 0 "ab" none).events +
      countNetCalls
        (searchSongs (searchSongs ⟨[], none⟩ 0 "ab" none).state 0 "ab" none).events = 2 := by
  decide

/-- Closed instance of C6 (amended): a successful first fetch of `"ab"`
followed by `" AB "` within the TTL window yields one network call then a
cache hit. -/
theorem searchSongs_cache_idempotent_witness :
    countNetCalls (searchSongs ⟨[], none⟩ 0 "ab" (some dA)).events = 1 ∧
    countNetCalls
      (searchSongs (searchSongs ⟨[], none⟩ 0 "ab" (some dA)).state 5 " AB " none).events = 0 ∧
    (searchSongs (searchSongs ⟨[], none⟩ 0 "ab" (some dA)).state 5 " AB " none).songs =
      (searchSongs ⟨[], none⟩ 0 "ab" (some dA)).songs :=
  searchSongs_cache_idempotent.2 ⟨[], none⟩ 0 5 "ab" " AB " (some dA) none
    (by decide) (by decide) (by decide) (by decide) (by decide) (by decide)

/-! # C7: fallback content on total failure -/

/-- C7: when the popular cache cannot serve and every sub-query result
parses to nothing, `getPopularSongs` returns the built-in fallback list
unchanged; and on a fresh valid query whose single fetch parses to nothing,
`searchSongs` returns exactly the fallback songs whose lowercased title or
artist contains the trimmed, lowercased query as a substring. -/
theorem fallback_on_total_failure :
    (∀ (st : SvcState) (now : Int) (fetched : List (Option ITunesData)),
        popularHit st now = none →
        (∀ d ∈ fetched, parseITunesResponse d = []) →
        getPopularSongs st now fetched =
          { songs := FALLBACK_SONGS, state := st,
            events := popularQueries.map Ev.netCall }) ∧
    (∀ (st : SvcState) (now : Int) (q : String) (d : Option ITunesData),
        2 ≤ (jsTrimS q).length →
        isCacheValid (jsMapGet st.searchCache (jsToLower (jsTrimS q)))
          SEARCH_CACHE_TTL now = false →
        parseITunesResponse d = [] →
        (searchSongs st now q d).songs =
          FALLBACK_SONGS.filter (fun s =>
            jsIncludes (jsToLower s.title).toList (jsToLower (jsTrimS q)).toList ||
            jsIncludes (jsToLower s.artist).toList (jsToLower (jsTrimS q)).toList)) := by
  constructor
  · intro st now fetched hmiss hempty
    have hall : ((fetched.filterMap id).map
        (fun d => parseITunesResponse (some d))).flatten = [] := by
      rw [List.flatten_eq_nil_iff]
      intro l hl
      obtain ⟨x, hx, rfl⟩ := List.mem_map.mp hl
      obtain ⟨a, ha, hax⟩ := List.mem_filterMap.mp hx
      obtain rfl : a = some x := by simpa using hax
      exact hempty (some x) ha
    simp [getPopularSongs, hmiss, getPopularSongsFetch, hall, dedupById, songIdMap]
  · intro st now q d hlen hmiss hempty
    rw [searchSongs_miss st now q d hlen hmiss]
    simp [hempty, fallbackFilter]

/-- Closed instance of C7 at a failing fetch for the query `"ed"` and a
fully failing popular aggregation. -/
theorem fallback_on_total_failure_witness :
    getPopularSongs ⟨[], none⟩ 0 [none, none, none] =
      { songs := FALLBACK_SONGS, state := ⟨[], none⟩,
        events := popularQueries.map Ev.netCall } ∧
    (searchSongs ⟨[], none⟩ 0 "ed" none).songs =
      FALLBACK_SONGS.filter (fun s =>
        jsIncludes (jsToLower s.title).toList (jsToLower (jsTrimS "ed")).toList ||
        jsIncludes (jsToLower s.artist).toList (jsToLower (jsTrimS "ed")).toList) :=
  ⟨fallback_on_total_failure.1 ⟨[], none⟩ 0 [none, none, none] rfl (by decide),
   fallback_on_total_failure.2 ⟨[], none⟩ 0 "ed" none (by decide) (by decide) rfl⟩

/-! # C8: TTL discipline of sweep and read paths -/

theorem find?_filter_keep {α : Type} (p q : α → Bool) (l : List α) (x : α)
    (h : l.find? p = some x) (hq : q x = true) :
    (l.filter q).find? p = some x := by
  induction l with
  | nil => simp at h
  | cons a t ih =>
    by_cases hpa : p a = true
    · rw [List.find?_cons_of_pos _ hpa] at h
      injection h with h
      subst h
      rw [List.filter_cons_of_pos hq]
      exact List.find?_cons_of_pos _ hpa
    · rw [List.find?_cons_of_neg _ hpa] at h
      by_cases hqa : q a = true
      · rw [List.filter_cons_of_pos hqa, List.find?_cons_of_neg _ hpa]
        exact ih h
      · rw [List.filter_cons_of_neg (by simpa using hqa)]
        exact ih h

/-- C8: the periodic sweep never removes a search entry, nor clears the
popular slot, whose age is strictly below its TTL; and on the read paths a
stale entry is never served: a stale search key still leads to the fetch
result (or fallback), and a stale popular slot leads to the fetch path. -/
theorem cache_ttl_discipline :
    (∀ (st : SvcState) (now : Int) (k : String) (e : CacheEntry (List Song)),
        jsMapGet st.searchCache k = some e →
        now - e.timestamp < SEARCH_CACHE_TTL →
        jsMapGet (cleanupCache st now).searchCache k = some e) ∧
    (∀ (st : SvcState) (now : Int) (e : CacheEntry (List Song)),
        st.popularCache = some e →
        now - e.timestamp < POPULAR_CACHE_TTL →
        (cleanupCache st now).popularCache = some e) ∧
    (∀ (st : SvcState) (now : Int) (q : String) (d : Option ITunesData)
        (e : CacheEntry (List Song)),
        2 ≤ (jsTrimS q).length →
        jsMapGet st.searchCache (jsToLower (jsTrimS q)) = some e →
        SEARCH_CACHE_TTL ≤ now - e.timestamp →
        (searchSongs st now q d).songs =
          (if (parseITunesResponse d).length ≠ 0 then parseITunesResponse d
           else fallbackFilter (jsToLower (jsTrimS q)))) ∧
    (∀ (st : SvcState) (now : Int) (fetched : List (Option ITunesData))
        (e : CacheEntry (List Song)),
        st.popularCache = some e →
        POPULAR_CACHE_TTL ≤ now - e.timestamp →
        getPopularSongs st now fetched = getPopularSongsFetch st now fetched) := by
  refine ⟨?_, ?_, ?_, ?_⟩
  · intro st now k e hget hfresh
    obtain ⟨kv, hfind, hkv⟩ : ∃ kv, st.searchCache.find? (fun p => p.1 = k) = some kv ∧
        kv.2 = e := by
      unfold jsMapGet at hget
      cases hf : st.searchCache.find? (fun p => p.1 = k) with
      | none => rw [hf] at hget; simp at hget
      | some kv => rw [hf] at hget; exact ⟨kv, rfl, by simpa using hget⟩
    unfold jsMapGet cleanupCache
    rw [find?_filter_keep _ _ _ _ hfind (by simp [hkv]; omega)]
    simp [hkv]
  · intro st now e he hfresh
    simp [cleanupCache, he]
    omega
  · intro st now q d e hlen hget hstale
    have hmiss : isCacheValid (jsMapGet st.searchCache (jsToLower (jsTrimS q)))
        SEARCH_CACHE_TTL now = false := by
      rw [hget]
      simp [isCacheValid]
      omega
    rw [searchSongs_miss st now q d hlen hmiss]
    by_cases h : (parseITunesResponse d).length ≠ 0 <;> simp [h]
  · intro st now fetched e he hstale
    have : popularHit st now = none := by
      simp [popularHit, he, isCacheValid]
      intro h
      omega
    simp [getPopularSongs, this]

/-- Closed instance of C8 with a fresh and a stale entry. -/
theorem cache_ttl_discipline_witness :
    jsMapGet (cleanupCache ⟨[("ab", ⟨[], 0⟩)], some ⟨[], 0⟩⟩ 5).searchCache "ab" =
      some ⟨[], 0⟩ ∧
    (cleanupCache ⟨[("ab", ⟨[], 0⟩)], some ⟨[], 0⟩⟩ 5).popularCache = some ⟨[], 0⟩ ∧
    (searchSongs ⟨[("ab", ⟨FALLBACK_SONGS, 0⟩)], none⟩ 1800000 "ab" none).songs =
      (if (parseITunesResponse none).length ≠ 0 then parseITunesResponse none
       else fallbackFilter (jsToLower (jsTrimS "ab"))) ∧
    getPopularSongs ⟨[], some ⟨FALLBACK_SONGS, 0⟩⟩ 7200000 [none, none, none] =
      getPopularSongsFetch ⟨[], some ⟨FALLBACK_SONGS, 0⟩⟩ 7200000 [none, none, none] :=
  ⟨cache_ttl_discipline.1 ⟨[("ab", ⟨[], 0⟩)], some ⟨[], 0⟩⟩ 5 "ab" ⟨[], 0⟩ rfl (by decide),
   cache_ttl_discipline.2.1 ⟨[("ab", ⟨[], 0⟩)], some ⟨[], 0⟩⟩ 5 ⟨[], 0⟩ rfl (by decide),
   cache_ttl_discipline.2.2.1 ⟨[("ab", ⟨FALLBACK_SONGS, 0⟩)], none⟩ 1800000 "ab" none
     ⟨FALLBACK_SONGS, 0⟩ (by decide) (by decide) (by decide),
   cache_ttl_discipline.2.2.2 ⟨[], some ⟨FALLBACK_SONGS, 0⟩⟩ 7200000 [none, none, none]
     ⟨FALLBACK_SONGS, 0⟩ rfl (by decide)⟩

/-! # C10: failures are not cached -/

/-- C10: when the catalog fetch for a valid, uncached query parses to
nothing, `searchSongs` leaves the whole cache state unchanged, returns the
fallback filter result without caching it, and an immediately repeated
identical query issues a fresh network call again. -/
theorem searchSongs_failure_not_cached :
    ∀ (st : SvcState) (now : Int) (q : String) (d : Option ITunesData),
      2 ≤ (jsTrimS q).length →
      isCacheValid (jsMapGet st.searchCache (jsToLower (jsTrimS q)))
        SEARCH_CACHE_TTL now = false →
      (parseITunesResponse d).length = 0 →
      (searchSongs st now q d).state = st ∧
      (searchSongs st now q d).songs = fallbackFilter (jsToLower (jsTrimS q)) ∧
      countNetCalls (searchSongs st now q d).events = 1 ∧
      (∀ d2, countNetCalls (searchSongs (searchSongs st now q d).state now q d2).events = 1) := by
  intro st now q d hlen hmiss hempty
  have hr := searchSongs_miss st now q d hlen hmiss
  rw [if_neg (by simpa using hempty)] at hr
  refine ⟨by rw [hr], by rw [hr], ?_, ?_⟩
  · rw [hr]; simp [countNetCalls, List.countP_cons]
  · intro d2
    have hst : (searchSongs st now q d).state = st := by rw [hr]
    rw [hst]
    exact searchSongs_miss_one_netcall st now q d2 hlen hmiss

/-- Closed instance of C10 at a failing fetch for query `"ab"`. -/
theorem searchSongs_failure_not_cached_witness :
    (searchSongs ⟨[], none⟩ 0 "ab" none).state = ⟨[], none⟩ ∧
    (searchSongs ⟨[], none⟩ 0 "ab" none).songs = fallbackFilter (jsToLower (jsTrimS "ab")) ∧
    countNetCalls (searchSongs ⟨[], none⟩ 0 "ab" none).events = 1 ∧
    countNetCalls
      (searchSongs (searchSongs ⟨[], none⟩ 0 "ab" none).state 0 "ab" none).events = 1 :=
  have h := searchSongs_failure_not_cached ⟨[], none⟩ 0 "ab" none
    (by decide) (by decide) (by decide)
  ⟨h.1, h.2.1, h.2.2.1, h.2.2.2 none⟩

/-! # C4: playback window of resolved links -/

/-- `fetchYouTubeInfo` always builds the default 0–30 second window. -/
theorem fetchYouTubeInfo_window (vid : String) (resp : Option EmbedData) (info : SongData)
    (h : fetchYouTubeInfo vid resp = some info) :
    info.startTime = 0 ∧ info.endTime = 30 := by
  cases resp with
  | none => simp [fetchYouTubeInfo] at h
  | some data =>
    cases ht : data.title with
    | none => simp [fetchYouTubeInfo, ht] at h
    | some t =>
      simp only [fetchYouTubeInfo, ht, Option.some.injEq] at h
      rw [← h]
      exact ⟨rfl, rfl⟩

/-- `fetchSpotifyInfo` always builds the default 0–30 second window. -/
theorem fetchSpotifyInfo_window (tid : String) (resp : Option EmbedData) (info : SongData)
    (h : fetchSpotifyInfo tid resp = some info) :
    info.startTime = 0 ∧ info.endTime = 30 := by
  cases resp with
  | none => simp [fetchSpotifyInfo] at h
  | some data =>
    simp only [fetchSpotifyInfo, Option.some.injEq] at h
    rw [← h]
    exact ⟨rfl, rfl⟩

/-- C4: a recognized Platform A link carrying a start-time parameter `t`
resolves (when the embed fetch succeeds) to a window `t .. t + 30`; without
the parameter the window is `0 .. 30`; and every resolved `SongData` of
either platform satisfies `endTime > startTime`. The final conjunct checks
the spec's concrete example URL. -/
theorem processMusicLink_window :
    (∀ (url : String) (yt : YTLink) (t : Nat) (ytResp spResp : Option EmbedData)
        (info : SongData),
        parseYouTubeUrl url = some yt → yt.startTime = some t →
        fetchYouTubeInfo yt.videoId ytResp = some info →
        (processMusicLink url ytResp spResp).map SongData.startTime = some t ∧
        (processMusicLink url ytResp spResp).map SongData.endTime = some (t + 30)) ∧
    (∀ (url : String) (yt : YTLink) (ytResp spResp : Option EmbedData) (info : SongData),
        parseYouTubeUrl url = some yt → yt.startTime = none →
        fetchYouTubeInfo yt.videoId ytResp = some info →
        processMusicLink url ytResp spResp = some info ∧
        info.startTime = 0 ∧ info.endTime = 30) ∧
    (∀ (url : String) (ytResp spResp : Option EmbedData) (sd : SongData),
        processMusicLink url ytResp spResp = some sd → sd.startTime < sd.endTime) ∧
    parseYouTubeUrl "https://youtu.be/dQw4w9WgXcQ?t=43" =
      some { videoId := "dQw4w9WgXcQ", startTime := some 43 } := by
  refine ⟨?_, ?_, ?_, by decide⟩
  · intro url yt t ytResp spResp info hp hs hf
    obtain ⟨h0, h30⟩ := fetchYouTubeInfo_window yt.videoId ytResp info hf
    by_cases ht : t = 0
    · subst ht
      simp [processMusicLink, hp, hf, hs, h0, h30]
    · simp [processMusicLink, hp, hf, hs, ht]
  · intro url yt ytResp spResp info hp hs hf
    obtain ⟨h0, h30⟩ := fetchYouTubeInfo_window yt.videoId ytResp info hf
    simp [processMusicLink, hp, hf, hs, h0, h30]
  · intro url ytResp spResp sd h
    cases hp : parseYouTubeUrl url with
    | some yt =>
      simp only [processMusicLink, hp] at h
      cases hf : fetchYouTubeInfo yt.videoId ytResp with
      | none => cases hs : yt.startTime <;> simp [hf, hs] at h
      | some i =>
        obtain ⟨h0, h30⟩ := fetchYouTubeInfo_window yt.videoId ytResp i hf
        cases hs : yt.startTime with
        | none =>
          simp only [hf, hs, Option.some.injEq] at h
          subst h
          omega
        | some t =>
          by_cases ht : t = 0
          · subst ht
            simp only [hf, hs, ne_eq, not_true_eq_false, if_false, reduceIte,
              Option.some.injEq] at h
            subst h
            omega
          · simp only [hf, hs, ne_eq, ht, not_false_eq_true, if_true, reduceIte,
              Option.some.injEq] at h
            subst h
            simp only []
            omega
    | none =>
      simp only [processMusicLink, hp] at h
      cases hsp : parseSpotifyUrl url with
      | none => simp [hsp] at h
      | some tid =>
        simp only [hsp] at h
        obtain ⟨h0, h30⟩ := fetchSpotifyInfo_window tid spResp sd h
        omega

/-- Closed instance of C4 at the spec's example URL, with and without the
start-time parameter. -/
theorem processMusicLink_window_witness :
    (processMusicLink "https://youtu.be/dQw4w9WgXcQ?t=43"
      (some { title := some "A - B" }) none).map SongData.startTime = some 43 ∧
    (processMusicLink "https://youtu.be/dQw4w9WgXcQ?t=43"
      (some { title := some "A - B" }) none).map SongData.endTime = some 73 ∧
    processMusicLink "https://youtu.be/dQw4w9WgXcQ"
      (some { title := some "A - B" }) none =
      some { type := .youtube, videoId := some "dQw4w9WgXcQ", title := "B", artist := "A",
             albumCover := some "https://img.youtube.com/vi/dQw4w9WgXcQ/maxresdefault.jpg",
             startTime := 0, endTime := 30 } :=
  have h1 := processMusicLink_window.1 "https://youtu.be/dQw4w9WgXcQ?t=43"
    { videoId := "dQw4w9WgXcQ", startTime := some 43 } 43
    (some { title := some "A - B" }) none
    { type := .youtube, videoId := some "dQw4w9WgXcQ", title := "B", artist := "A",
      albumCover := some "https://img.youtube.com/vi/dQw4w9WgXcQ/maxresdefault.jpg",
      startTime := 0, endTime := 30 }
    (by decide) rfl (by decide)
  have h2 := processMusicLink_window.2.1 "https://youtu.be/dQw4w9WgXcQ"
    { videoId := "dQw4w9WgXcQ", startTime := none }
    (some { title := some "A - B" }) none
    { type := .youtube, videoId := some "dQw4w9WgXcQ", title := "B", artist := "A",
      albumCover := some "https://img.youtube.com/vi/dQw4w9WgXcQ/maxresdefault.jpg",
      startTime := 0, endTime := 30 }
    (by decide) rfl (by decide)
  ⟨h1.1, h1.2, h2.1⟩

/-! # C2: preview URLs (corrected) -/

/-- C2 counterexample: with every fetch failing and an empty cache,
`getPopularSongs` returns the built-in fallback list, whose second song
carries an empty preview URL. -/
theorem preview_nonempty_counterexample :
    (getPopularSongs ⟨[], none⟩ 0 [none, none, none]).songs = FALLBACK_SONGS ∧
    ((getPopularSongs ⟨[], none⟩ 0 [none, none, none]).songs.map Song.preview).get? 1 =
      some "" :=
  ⟨rfl, rfl⟩

/-- C2 (amended): every Song produced by `parseITunesResponse` has a
non-empty preview URL (entries lacking one are filtered out); lists returned
through the built-in fallback, however, can carry songs with empty preview
URLs. -/
theorem parseITunesResponse_preview_nonempty :
    ∀ (data : Option ITunesData), ∀ s ∈ parseITunesResponse data, s.preview ≠ "" := by
  intro data s hs
  cases data with
  | none => simp [parseITunesResponse] at hs
  | some d =>
    cases hr : d.results with
    | none => simp [parseITunesResponse, hr] at hs
    | some rs =>
      by_cases hlen : rs.length = 0
      · simp [parseITunesResponse, hr, hlen] at hs
      · simp only [parseITunesResponse, hr, hlen, if_false, reduceIte,
          List.mem_map, List.mem_filter] at hs
        obtain ⟨t, ⟨_, hfilt⟩, rfl⟩ := hs
        simp only [Bool.and_eq_true] at hfilt
        obtain ⟨⟨hprev, _⟩, _⟩ := hfilt
        cases hp : t.previewUrl with
        | none => rw [hp] at hprev; simp [strTruthy] at hprev
        | some p =>
          rw [hp] at hprev
          simp only [strTruthy, Bool.not_eq_true'] at hprev
          simp only [hp, Option.getD_some]
          intro hcontra
          rw [hcontra] at hprev
          exact absurd hprev (by decide)

/-- Closed instance of C2 (amended) at a concrete one-track payload. -/
theorem parseITunesResponse_preview_nonempty_witness :
    ({ id := 1, title := "A", artist := "Unknown Artist", album := "", albumCover := "",
       preview := "p", duration := 30 } : Song).preview ≠ "" :=
  parseITunesResponse_preview_nonempty (some dA) _ (by decide)

/-! # C3: deduplication in getPopularSongs (corrected) -/

theorem jsMapSet_keys {κ α : Type} [DecidableEq κ] (m : List (κ × α)) (k : κ) (v : α) :
    (jsMapSet m k v).map Prod.fst =
      if k ∈ m.map Prod.fst then m.map Prod.fst else m.map Prod.fst ++ [k] := by
  induction m with
  | nil => simp [jsMapSet]
  | cons kv t ih =>
    by_cases h : kv.1 = k
    · simp [jsMapSet, h]
    · have hne : ¬ k = kv.1 := fun hc => h hc.symm
      by_cases hm : k ∈ t.map Prod.fst
      · simp [jsMapSet, h, ih, hm, hne]
      · simp [jsMapSet, h, ih, hm, hne]

theorem jsMapGet_cons {κ α : Type} [DecidableEq κ] (x : κ × α) (m : List (κ × α)) (k : κ) :
    jsMapGet (x :: m) k = if x.1 = k then some x.2 else jsMapGet m k := by
  by_cases h : x.1 = k <;> simp [jsMapGet, List.find?_cons, h]

theorem jsMapGet_set_ne {κ α : Type} [DecidableEq κ] (m : List (κ × α)) (k k' : κ) (v : α)
    (h : k' ≠ k) : jsMapGet (jsMapSet m k v) k' = jsMapGet m k' := by
  induction m with
  | nil => simp [jsMapSet, jsMapGet, List.find?_cons, Ne.symm h]
  | cons kv t ih =>
    by_cases hk : kv.1 = k
    · simp [jsMapSet, hk, jsMapGet_cons, Ne.symm h]
    · simp [jsMapSet, hk, jsMapGet_cons, ih]

theorem mem_jsMapSet {κ α : Type} [DecidableEq κ] (m : List (κ × α)) (k : κ) (v : α)
    (kv : κ × α) (h : kv ∈ jsMapSet m k v) : kv = (k, v) ∨ kv ∈ m := by
  induction m with
  | nil => simpa [jsMapSet] using h
  | cons p t ih =>
    by_cases hp : p.1 = k
    · simp only [jsMapSet, hp, if_pos, reduceIte] at h
      rcases List.mem_cons.mp h with h | h
      · exact Or.inl h
      · exact Or.inr (List.mem_cons_of_mem p h)
    · simp only [jsMapSet, hp, if_neg, reduceIte] at h
      rcases List.mem_cons.mp h with h | h
      · exact Or.inr (h ▸ List.mem_cons_self p t)
      · rcases ih h with h | h
        · exact Or.inl h
        · exact Or.inr (List.mem_cons_of_mem p h)

theorem jsMapSet_ne_nil {κ α : Type} [DecidableEq κ] (m : List (κ × α)) (k : κ) (v : α) :
    jsMapSet m k v ≠ [] := by
  cases m with
  | nil => simp [jsMapSet]
  | cons kv t =>
    by_cases h : kv.1 = k <;> simp [jsMapSet, h]

theorem songIdMap_append_singleton (l : List Song) (s : Song) :
    songIdMap (l ++ [s]) = jsMapSet (songIdMap l) s.id s := by
  simp [songIdMap, List.foldl_append]

theorem firstSeenKeys_foldl_mem (l : List Nat) :
    ∀ (acc : List Nat) (x : Nat),
      x ∈ l.foldl (fun acc k => if k ∈ acc then acc else acc ++ [k]) acc ↔
        x ∈ acc ∨ x ∈ l := by
  induction l with
  | nil => simp
  | cons k t ih =>
    intro acc x
    simp only [List.foldl_cons]
    rw [ih]
    by_cases hk : k ∈ acc
    · simp only [hk, if_pos, reduceIte]
      constructor
      · rintro (h | h)
        · exact Or.inl h
        · exact Or.inr (List.mem_cons_of_mem k h)
      · rintro (h | h)
        · exact Or.inl h
        · rcases List.mem_cons.mp h with h | h
          · exact Or.inl (by rw [h]; exact hk)
          · exact Or.inr h
    · simp only [hk, if_neg, reduceIte]
      constructor
      · rintro (h | h)
        · rcases List.mem_append.mp h with h | h
          · exact Or.inl h
          · exact Or.inr (List.mem_cons.mpr (Or.inl (List.mem_singleton.mp h)))
        · exact Or.inr (List.mem_cons_of_mem k h)
      · rintro (h | h)
        · exact Or.inl (List.mem_append.mpr (Or.inl h))
        · rcases List.mem_cons.mp h with h | h
          · exact Or.inl (List.mem_append.mpr (Or.inr (List.mem_singleton.mpr h)))
          · exact Or.inr h

theorem mem_firstSeenKeys (l : List Nat) (x : Nat) :
    x ∈ firstSeenKeys l ↔ x ∈ l := by
  rw [firstSeenKeys, firstSeenKeys_foldl_mem]
  simp

theorem firstSeenKeys_append_singleton (l : List Nat) (k : Nat) :
    firstSeenKeys (l ++ [k]) =
      if k ∈ firstSeenKeys l then firstSeenKeys l else firstSeenKeys l ++ [k] := by
  simp [firstSeenKeys, List.foldl_append]

theorem firstSeenKeys_foldl_nodup (l : List Nat) :
    ∀ (acc : List Nat), acc.Nodup →
      (l.foldl (fun acc k => if k ∈ acc then acc else acc ++ [k]) acc).Nodup := by
  induction l with
  | nil => exact fun acc h => h
  | cons k t ih =>
    intro acc hacc
    simp only [List.foldl_cons]
    by_cases hk : k ∈ acc
    · simpa [hk] using ih acc hacc
    · have hn : (acc ++ [k]).Nodup := by simp [List.nodup_append, hacc, hk]
      simpa [hk] using ih (acc ++ [k]) hn

theorem firstSeenKeys_nodup (l : List Nat) : (firstSeenKeys l).Nodup :=
  firstSeenKeys_foldl_nodup l [] List.nodup_nil

theorem songIdMap_keys (l : List Song) :
    (songIdMap l).map Prod.fst = firstSeenKeys (l.map Song.id) := by
  induction l using List.reverseRecOn with
  | nil => rfl
  | append_singleton l s ih =>
    rw [songIdMap_append_singleton, jsMapSet_keys, ih, List.map_append,
      List.map_singleton, firstSeenKeys_append_singleton]

theorem songIdMap_get (l : List Song) (k : Nat) :
    jsMapGet (songIdMap l) k = (l.filter (fun s => s.id = k)).getLast? := by
  induction l using List.reverseRecOn with
  | nil => simp [songIdMap, jsMapGet]
  | append_singleton l s ih =>
    rw [songIdMap_append_singleton, List.filter_append]
    by_cases hk : s.id = k
    · subst hk
      rw [jsMapGet_set_self]
      simp [List.getLast?_append]
    · rw [jsMapGet_set_ne _ _ _ _ (fun hc => hk hc.symm), ih]
      simp [hk]

theorem songIdMap_snd_id (l : List Song) :
    ∀ kv ∈ songIdMap l, kv.2.id = kv.1 := by
  induction l using List.reverseRecOn with
  | nil => simp [songIdMap]
  | append_singleton l s ih =>
    intro kv hkv
    rw [songIdMap_append_singleton] at hkv
    rcases mem_jsMapSet _ _ _ _ hkv with h | h
    · subst h; rfl
    · exact ih kv h

theorem find?_of_mem_nodup {κ α : Type} [DecidableEq κ] (m : List (κ × α))
    (kv : κ × α) (hm : kv ∈ m) (hnd : (m.map Prod.fst).Nodup) :
    m.find? (fun p => p.1 = kv.1) = some kv := by
  induction m with
  | nil => simp at hm
  | cons p t ih =>
    simp only [List.map_cons, List.nodup_cons] at hnd
    rcases List.mem_cons.mp hm with h | h
    · subst h
      exact List.find?_cons_of_pos _ (by simp)
    · have hne : ¬ (p.1 = kv.1) := by
        intro hc
        exact hnd.1 (hc ▸ List.mem_map_of_mem Prod.fst h)
      rw [List.find?_cons_of_neg _ (by simpa using hne)]
      exact ih h hnd.2

theorem songIdMap_ne_nil (l : List Song) (h : l ≠ []) : songIdMap l ≠ [] := by
  induction l using List.reverseRecOn with
  | nil => exact absurd rfl h
  | append_singleton l s _ =>
    rw [songIdMap_append_singleton]
    exact jsMapSet_ne_nil _ _ _

theorem dedupById_map_id (l : List Song) :
    (dedupById l).map Song.id = firstSeenKeys (l.map Song.id) := by
  rw [dedupById, List.map_map]
  calc (songIdMap l).map (Song.id ∘ fun kv => kv.2)
      = (songIdMap l).map Prod.fst :=
        List.map_congr_left (fun kv hkv => songIdMap_snd_id l kv hkv)
    _ = firstSeenKeys (l.map Song.id) := songIdMap_keys l

theorem dedupById_last_occurrence (l : List Song) (s : Song) (hs : s ∈ dedupById l) :
    (l.filter (fun x => x.id = s.id)).getLast? = some s := by
  obtain ⟨kv, hkv, rfl⟩ := List.mem_map.mp hs
  have hnd : ((songIdMap l).map Prod.fst).Nodup := by
    rw [songIdMap_keys]
    exact firstSeenKeys_nodup _
  have hfind := find?_of_mem_nodup (songIdMap l) kv hkv hnd
  have hget : jsMapGet (songIdMap l) kv.1 = some kv.2 := by
    rw [jsMapGet, hfind, Option.map_some']
  rw [songIdMap_snd_id l kv hkv, ← songIdMap_get l kv.1, hget]

/-- C3 counterexample: two sub-queries both return a song with id 1 but
different titles ("A" first, then "B"); the deduplicated result keeps the
second occurrence, not the first. -/
theorem popular_dedup_counterexample :
    (getPopularSongs ⟨[], none⟩ 0 [some dA, some dB, none]).songs.map
        (fun s => (s.id, s.title)) = [(1, "B")] ∧
    ("B" : String) ≠ "A" :=
  ⟨rfl, by decide⟩

/-- C3 (amended): starting from an empty cache, the `getPopularSongs` result
contains each Song id at most once and has at most 15 elements; when the
aggregated sub-query results are non-empty, the returned ids are the
first 15 ids of the concatenation in first-seen order, and each retained
Song is the LAST occurrence of its id in the concatenation (the JS Map
overwrites the value of a duplicated key while keeping its position). -/
theorem getPopularSongs_dedup (now : Int) (r1 r2 r3 : Option ITunesData) :
    (getPopularSongs ⟨[], none⟩ now [r1, r2, r3]).songs.length ≤ 15 ∧
    ((getPopularSongs ⟨[], none⟩ now [r1, r2, r3]).songs.map Song.id).Nodup ∧
    ((((([r1, r2, r3].filterMap id).map
          (fun d => parseITunesResponse (some d))).flatten)) ≠ [] →
      (getPopularSongs ⟨[], none⟩ now [r1, r2, r3]).songs.map Song.id =
        (firstSeenKeys ((((([r1, r2, r3].filterMap id).map
          (fun d => parseITunesResponse (some d))).flatten)).map Song.id)).take 15 ∧
      ∀ s ∈ (getPopularSongs ⟨[], none⟩ now [r1, r2, r3]).songs,
        (((([r1, r2, r3].filterMap id).map
          (fun d => parseITunesResponse (some d))).flatten).filter
            (fun x => x.id = s.id)).getLast? = some s) := by
  have hpop : getPopularSongs ⟨[], none⟩ now [r1, r2, r3] =
      getPopularSongsFetch ⟨[], none⟩ now [r1, r2, r3] := by
    simp [getPopularSongs, popularHit]
  set all := (((([r1, r2, r3].filterMap id).map
    (fun d => parseITunesResponse (some d))).flatten)) with hall
  rw [hpop]
  unfold getPopularSongsFetch
  simp only [← hall]
  by_cases hlen : 0 < ((dedupById all).take 15).length
  · simp only [hlen, if_pos, reduceIte]
    refine ⟨?_, ?_, fun _ => ⟨?_, ?_⟩⟩
    · rw [List.length_take]
      exact Nat.min_le_left _ _
    · rw [List.map_take, dedupById_map_id]
      exact List.Nodup.sublist (List.take_sublist _ _) (firstSeenKeys_nodup _)
    · rw [List.map_take, dedupById_map_id]
    · intro s hs
      exact dedupById_last_occurrence all s (List.mem_of_mem_take hs)
  · simp only [hlen, if_neg, reduceIte]
    refine ⟨by decide, by decide, fun hne => absurd ?_ hlen⟩
    have hmap : dedupById all ≠ [] := by
      intro hc
      have : songIdMap all = [] := by
        have := congrArg List.length hc
        simpa [dedupById] using this
      exact songIdMap_ne_nil all hne this
    have : 0 < (dedupById all).length := List.length_pos.mpr hmap
    rw [List.length_take]
    omega

/-- Closed instance of C3 (amended) at the duplicated-id payloads. -/
theorem getPopularSongs_dedup_witness :
    ((getPopularSongs ⟨[], none⟩ 0 [some dA, some dB, none]).songs.map Song.id).Nodup ∧
    (getPopularSongs ⟨[], none⟩ 0 [some dA, some dB, none]).songs.map Song.id =
      (firstSeenKeys ((((([some dA, some dB, none].filterMap id).map
        (fun d => parseITunesResponse (some d))).flatten)).map Song.id)).take 15 :=
  have h := getPopularSongs_dedup 0 (some dA) (some dB) none
  ⟨h.2.1, (h.2.2 (by decide)).1⟩

/-! # C1: title/artist splitting heuristics (corrected) -/

theorem splitOnChar_not_mem {sep : Char} {cs : List Char} (h : sep ∉ cs) :
    splitOnChar sep cs = [cs] := by
  induction cs with
  | nil => rfl
  | cons c rest ih =>
    have hc : ¬ c = sep := fun hc => h (hc ▸ List.mem_cons_self c rest)
    have hrest : sep ∉ rest := fun hr => h (List.mem_cons_of_mem c hr)
    simp [splitOnChar, hc, ih hrest]

theorem splitOnChar_sep_append {sep : Char} {a b : List Char}
    (ha : sep ∉ a) (hb : sep ∉ b) :
    splitOnChar sep (a ++ sep :: b) = [a, b] := by
  induction a with
  | nil => simp [splitOnChar, splitOnChar_not_mem hb]
  | cons c a' ih =>
    have hc : ¬ c = sep := fun hc => ha (hc ▸ List.mem_cons_self c a')
    have ha' : sep ∉ a' := fun hr => ha (List.mem_cons_of_mem c hr)
    simp [splitOnChar, hc, ih ha']

theorem spotTail_none {cs : List Char} (h : '·' ∉ cs) : spotTail cs = none := by
  unfold spotTail
  cases hd : cs.dropWhile jsWS with
  | nil => rfl
  | cons c r =>
    have hc : c ∈ cs :=
      ((List.dropWhile_suffix jsWS).sublist).mem (hd ▸ List.mem_cons_self c r)
    show (if c = '·' then dotPlusFrom r ((r.takeWhile jsWS).length) else none) = none
    exact if_neg (fun hc' : c = '·' => h (hc' ▸ hc))

theorem spotGroup1_none {cs : List Char} (h : '·' ∉ cs) :
    ∀ acc, spotGroup1 acc cs = none := by
  induction cs with
  | nil => intro acc; rfl
  | cons c rest ih =>
    intro acc
    have hrest : '·' ∉ rest := fun hr => h (List.mem_cons_of_mem c hr)
    unfold spotGroup1
    by_cases hd : jsDot c = true
    · simp [hd, spotTail_none hrest, ih hrest]
    · simp [hd]

theorem spotSearch_none {cs : List Char} (h : '·' ∉ cs) : spotSearch cs = none := by
  induction cs with
  | nil => rfl
  | cons c rest ih =>
    have hrest : '·' ∉ rest := fun hr => h (List.mem_cons_of_mem c hr)
    unfold spotSearch
    rw [spotGroup1_none h []]
    exact ih hrest

theorem dropWhile_ws_append {w rest : List Char} (hw : ∀ c ∈ w, jsWS c = true) :
    (w ++ rest).dropWhile jsWS = rest.dropWhile jsWS := by
  induction w with
  | nil => rfl
  | cons c w' ih =>
    rw [List.cons_append, List.dropWhile_cons,
      if_pos (hw c (List.mem_cons_self c w'))]
    exact ih (fun x hx => hw x (List.mem_cons_of_mem c hx))

theorem takeWhile_ws_append {w b : List Char} (hw : ∀ c ∈ w, jsWS c = true)
    (hb : ∀ c, b.head? = some c → jsWS c = false) :
    (w ++ b).takeWhile jsWS = w := by
  induction w with
  | nil =>
    cases b with
    | nil => rfl
    | cons c t => simp [List.takeWhile_cons, hb c rfl]
  | cons c w' ih =>
    rw [List.cons_append, List.takeWhile_cons,
      if_pos (hw c (List.mem_cons_self c w'))]
    rw [ih (fun x hx => hw x (List.mem_cons_of_mem c hx))]

theorem takeWhile_dot_all {b : List Char} (hb : ∀ c ∈ b, jsDot c = true) :
    b.takeWhile jsDot = b :=
  List.takeWhile_eq_self_iff.mpr hb

theorem dotPlusFrom_ws (w b : List Char) (hw : ∀ c ∈ w, jsWS c = true)
    (hb1 : b ≠ []) (hb2 : ∀ c, b.head? = some c → jsWS c = false)
    (hb3 : ∀ c ∈ b, jsDot c = true) :
    dotPlusFrom (w ++ b) w.length = some b := by
  cases w with
  | nil =>
    cases b with
    | nil => exact absurd rfl hb1
    | cons c t =>
      have hcw : jsWS c = false := hb2 c rfl
      have hcd : jsDot c = true := hb3 c (List.mem_cons_self c t)
      simp only [List.nil_append, List.length_nil, dotPlusFrom, hcd, if_pos, reduceIte]
      rw [takeWhile_dot_all hb3]
  | cons x w' =>
    have hdrop : ((x :: w') ++ b).drop (w'.length + 1) = b := by
      rw [List.cons_append, List.drop_succ_cons]
      exact List.drop_left w' b
    simp only [List.length_cons, dotPlusFrom, hdrop]
    cases b with
    | nil => exact absurd rfl hb1
    | cons c t =>
      have hcd : jsDot c = true := hb3 c (List.mem_cons_self c t)
      simp only [hcd, if_pos, reduceIte, Option.orElse]
      rw [takeWhile_dot_all hb3]

theorem spotTail_sep (w1 w2 b : List Char)
    (hw1 : ∀ c ∈ w1, jsWS c = true) (hw2 : ∀ c ∈ w2, jsWS c = true)
    (hb1 : b ≠ []) (hb2 : ∀ c, b.head? = some c → jsWS c = false)
    (hb3 : ∀ c ∈ b, jsDot c = true) :
    spotTail (w1 ++ '·' :: (w2 ++ b)) = some b := by
  unfold spotTail
  rw [dropWhile_ws_append hw1, List.dropWhile_cons,
    if_neg (by rw [show jsWS '·' = false from rfl]; simp)]
  show (if '·' = '·' then
      dotPlusFrom (w2 ++ b) (((w2 ++ b).takeWhile jsWS).length) else none) = some b
  rw [if_pos rfl, takeWhile_ws_append hw2 hb2]
  exact dotPlusFrom_ws w2 b hw2 hb1 hb2 hb3

theorem spotTail_within (l rest : List Char)
    (hx : ∃ x ∈ l, jsWS x = false) (hdot : ∀ c ∈ l, c ≠ '·') :
    spotTail (l ++ rest) = none := by
  induction l with
  | nil => simp at hx
  | cons c t ih =>
    unfold spotTail
    rw [List.cons_append, List.dropWhile_cons]
    by_cases hc : jsWS c = true
    · rw [if_pos hc]
      obtain ⟨x, hmem, hxw⟩ := hx
      rcases List.mem_cons.mp hmem with rfl | hx'
      · rw [hc] at hxw; exact absurd hxw (by simp)
      · have h2 := ih ⟨x, hx', hxw⟩ (fun y hy => hdot y (List.mem_cons_of_mem c hy))
        unfold spotTail at h2
        exact h2
    · rw [if_neg hc]
      show (if c = '·' then
          dotPlusFrom (t ++ rest) (((t ++ rest).takeWhile jsWS).length) else none) = none
      exact if_neg (hdot c (List.mem_cons_self c t))

theorem spotGroup1_sep (w1 w2 b : List Char)
    (hw1 : ∀ c ∈ w1, jsWS c = true) (hw2 : ∀ c ∈ w2, jsWS c = true)
    (hb1 : b ≠ []) (hb2 : ∀ c, b.head? = some c → jsWS c = false)
    (hb3 : ∀ c ∈ b, jsDot c = true) :
    ∀ (a acc : List Char), a ≠ [] →
      (∀ c ∈ a, jsDot c = true ∧ c ≠ '·') →
      (∀ c, a.getLast? = some c → jsWS c = false) →
      spotGroup1 acc (a ++ (w1 ++ '·' :: (w2 ++ b))) = some (acc ++ a, b) := by
  intro a
  induction a with
  | nil => intro acc h; exact absurd rfl h
  | cons x a' ih =>
    intro acc _ hdot hlast
    have hx := hdot x (List.mem_cons_self x a')
    rw [List.cons_append]
    unfold spotGroup1
    rw [if_pos hx.1]
    cases a' with
    | nil =>
      rw [List.nil_append, spotTail_sep w1 w2 b hw1 hw2 hb1 hb2 hb3]
    | cons y a'' =>
      have hgl : (y :: a'').getLast? = (x :: y :: a'').getLast? :=
        (List.getLast?_cons_cons).symm
      have hlast' : ∀ c, (y :: a'').getLast? = some c → jsWS c = false :=
        fun c hc => hlast c (hgl ▸ hc)
      obtain ⟨z, hz⟩ : ∃ z, (y :: a'').getLast? = some z := by
        cases hzz : (y :: a'').getLast? with
        | none => exact absurd (List.getLast?_eq_none_iff.mp hzz) (by simp)
        | some z => exact ⟨z, rfl⟩
      have hwithin : spotTail ((y :: a'') ++ (w1 ++ '·' :: (w2 ++ b))) = none := by
        apply spotTail_within
        · exact ⟨z, List.mem_of_mem_getLast? hz, hlast' z hz⟩
        · exact fun c hc => (hdot c (List.mem_cons_of_mem x hc)).2
      rw [hwithin,
        ih (acc ++ [x]) (by simp)
          (fun c hc => hdot c (List.mem_cons_of_mem x hc)) hlast']
      simp

theorem spotSearch_sep (a w1 w2 b : List Char)
    (ha1 : a ≠ []) (ha2 : ∀ c ∈ a, jsDot c = true ∧ c ≠ '·')
    (ha3 : ∀ c, a.getLast? = some c → jsWS c = false)
    (hw1 : ∀ c ∈ w1, jsWS c = true) (hw2 : ∀ c ∈ w2, jsWS c = true)
    (hb1 : b ≠ []) (hb2 : ∀ c, b.head? = some c → jsWS c = false)
    (hb3 : ∀ c ∈ b, jsDot c = true) :
    spotSearch (a ++ (w1 ++ '·' :: (w2 ++ b))) = some (a, b) := by
  cases a with
  | nil => exact absurd rfl ha1
  | cons x a' =>
    rw [List.cons_append]
    unfold spotSearch
    rw [← List.cons_append,
      spotGroup1_sep w1 w2 b hw1 hw2 hb1 hb2 hb3 (x :: a') [] (by simp) ha2 ha3]
    simp

/-- C1 counterexample: for a Platform A embed title with no hyphen
(`"Imagine"`), the resolver sets the artist to the title itself, not to
`"Unknown Artist"` as the claim states. -/
theorem yt_split_counterexample :
    (fetchYouTubeInfo "dQw4w9WgXcQ" (some { title := some "Imagine" })).map
        SongData.artist = some "Imagine" ∧
    (fetchYouTubeInfo "dQw4w9WgXcQ" (some { title := some "Imagine" })).map
        SongData.artist ≠ some "Unknown Artist" :=
  ⟨rfl, by decide⟩

/-- C1 (amended): Platform A (`fetchYouTubeInfo`) splits the embed title on
hyphens; with no hyphen the whole string becomes the title and the artist
becomes the TRIMMED TITLE ITSELF (falling back to "Unknown Artist" only when
the trimmed title is empty); with exactly one hyphen the trimmed piece
before it becomes the artist and the trimmed piece after it the title (when
both are non-empty). Platform B (`fetchSpotifyInfo`) matches
`/(.+?)\s*·\s*(.+)/`: with no middle dot the whole string becomes the title
("Unknown" when it is empty) and the artist is "Unknown Artist"; around the
first middle dot, the piece before (whitespace-trimmed on the right by the
regex) becomes the title and the piece after the artist. -/
theorem title_artist_split :
    (∀ (vid : String) (t : String) (cov : Option String),
        '-' ∉ t.toList →
        (fetchYouTubeInfo vid (some ⟨some t, cov⟩)).map
            SongData.title = some t ∧
        (fetchYouTubeInfo vid (some ⟨some t, cov⟩)).map
            SongData.artist =
          some (if (jsTrim t.toList).isEmpty then "Unknown Artist"
                else String.mk (jsTrim t.toList))) ∧
    (∀ (vid : String) (a b : List Char) (cov : Option String),
        '-' ∉ a → '-' ∉ b →
        (jsTrim a).isEmpty = false → (jsTrim b).isEmpty = false →
        (fetchYouTubeInfo vid (some ⟨some (String.mk (a ++ '-' :: b)), cov⟩)).map
            SongData.artist = some (String.mk (jsTrim a)) ∧
        (fetchYouTubeInfo vid (some ⟨some (String.mk (a ++ '-' :: b)), cov⟩)).map
            SongData.title = some (String.mk (jsTrim b))) ∧
    (∀ (tid : String) (t : String) (cov : Option String),
        '·' ∉ t.toList →
        (fetchSpotifyInfo tid (some ⟨some t, cov⟩)).map
            SongData.title = some (if t.isEmpty then "Unknown" else t) ∧
        (fetchSpotifyInfo tid (some ⟨some t, cov⟩)).map
            SongData.artist = some "Unknown Artist") ∧
    (∀ (tid : String) (a w1 w2 b : List Char) (cov : Option String),
        a ≠ [] → (∀ c ∈ a, jsDot c = true ∧ c ≠ '·') →
        (∀ c, a.getLast? = some c → jsWS c = false) →
        (∀ c ∈ w1, jsWS c = true) → (∀ c ∈ w2, jsWS c = true) →
        b ≠ [] → (∀ c, b.head? = some c → jsWS c = false) →
        (∀ c ∈ b, jsDot c = true) →
        (fetchSpotifyInfo tid
            (some ⟨some (String.mk (a ++ (w1 ++ '·' :: (w2 ++ b)))), cov⟩)).map
            SongData.title = some (String.mk a) ∧
        (fetchSpotifyInfo tid
            (some ⟨some (String.mk (a ++ (w1 ++ '·' :: (w2 ++ b)))), cov⟩)).map
            SongData.artist = some (String.mk b)) := by
  refine ⟨?_, ?_, ?_, ?_⟩
  · intro vid t cov h
    refine ⟨?_, ?_⟩
    · show some (String.mk (jsOrL ((List.map jsTrim (splitOnChar '-' t.toList)).get? 1)
        t.toList)) = some t
      rw [splitOnChar_not_mem h]
      show some (String.mk (jsOrL none t.toList)) = some t
      rw [show jsOrL none t.toList = t.toList from rfl, mk_toList]
    · show some (String.mk (jsOrL ((List.map jsTrim (splitOnChar '-' t.toList)).get? 0)
        "Unknown Artist".toList)) = _
      rw [splitOnChar_not_mem h]
      show some (String.mk (if (jsTrim t.toList).isEmpty then "Unknown Artist".toList
        else jsTrim t.toList)) = _
      by_cases he : (jsTrim t.toList).isEmpty = true
      · rw [if_pos he, if_pos he, mk_toList]
      · rw [if_neg he, if_neg he]
  · intro vid a b cov ha hb hta htb
    refine ⟨?_, ?_⟩
    · show some (String.mk (jsOrL ((List.map jsTrim
          (splitOnChar '-' (String.mk (a ++ '-' :: b)).toList)).get? 0)
          "Unknown Artist".toList)) = _
      rw [toList_mk, splitOnChar_sep_append ha hb]
      show some (String.mk (if (jsTrim a).isEmpty then "Unknown Artist".toList
        else jsTrim a)) = _
      rw [if_neg (by simp [hta])]
    · show some (String.mk (jsOrL ((List.map jsTrim
          (splitOnChar '-' (String.mk (a ++ '-' :: b)).toList)).get? 1)
          (String.mk (a ++ '-' :: b)).toList)) = _
      rw [toList_mk, splitOnChar_sep_append ha hb]
      show some (String.mk (if (jsTrim b).isEmpty then a ++ '-' :: b else jsTrim b)) = _
      rw [if_neg (by simp [htb])]
  · intro tid t cov h
    refine ⟨?_, ?_⟩
    · show some (match spotSearch t.toList with
          | some g => String.mk g.1
          | none => jsOr (some t) "Unknown") =
        some (if t.isEmpty then "Unknown" else t)
      rw [spotSearch_none h]
      rfl
    · show some (match spotSearch t.toList with
          | some g => String.mk g.2
          | none => "Unknown Artist") = some "Unknown Artist"
      rw [spotSearch_none h]
  · intro tid a w1 w2 b cov ha1 ha2 ha3 hw1 hw2 hb1 hb2 hb3
    have hs := spotSearch_sep a w1 w2 b ha1 ha2 ha3 hw1 hw2 hb1 hb2 hb3
    refine ⟨?_, ?_⟩
    · show some (match spotSearch (String.mk (a ++ (w1 ++ '·' :: (w2 ++ b)))).toList with
          | some g => String.mk g.1
          | none => jsOr (some (String.mk (a ++ (w1 ++ '·' :: (w2 ++ b))))) "Unknown") =
        some (String.mk a)
      rw [toList_mk, hs]
    · show some (match spotSearch (String.mk (a ++ (w1 ++ '·' :: (w2 ++ b)))).toList with
          | some g => String.mk g.2
          | none => "Unknown Artist") = some (String.mk b)
      rw [toList_mk, hs]

/-- Closed instance of C1 (amended) at the spec's example titles. -/
theorem title_artist_split_witness :
    (fetchYouTubeInfo "v1" (some { title := some "Imagine" })).map SongData.title =
      some "Imagine" ∧
    (fetchYouTubeInfo "v2" (some { title := some (String.mk
        ("Rick Astley ".toList ++ '-' :: " Never Gonna Give You Up".toList)) })).map
      SongData.artist = some "Rick Astley" ∧
    (fetchSpotifyInfo "t1" (some { title := some "JustTitle" })).map SongData.artist =
      some "Unknown Artist" ∧
    (fetchSpotifyInfo "t2" (some { title := some (String.mk
        ("Song Title".toList ++ (" ".toList ++ '·' :: (" ".toList ++
          "Artist Name".toList)))) })).map SongData.title = some "Song Title" :=
  have h1 := (title_artist_split.1 "v1" "Imagine" none (by decide)).1
  have h2 := (title_artist_split.2.1 "v2" "Rick Astley ".toList
    " Never Gonna Give You Up".toList none (by decide) (by decide) (by decide)
    (by decide)).1
  have h3 := (title_artist_split.2.2.1 "t1" "JustTitle" none (by decide)).2
  have h4 := (title_artist_split.2.2.2 "t2" "Song Title".toList " ".toList " ".toList
    "Artist Name".toList none (by decide) (by decide) (by decide) (by decide)
    (by decide) (by decide) (by decide) (by decide)).1
  ⟨h1, by rw [h2]; rfl, h3, by rw [h4]; rfl⟩

end SongService
